import Mathlib

/-!
Shallow embedding of the CHIP-8 emulator core from `src/main.rs` of the
Ranzor/Chip8 repository.

Modelling conventions:
* Machine integers (`u8`, `u16`, `usize`) are `Nat` values reduced modulo
  `2^8`, `2^16`, `2^64` exactly at the operations where the Rust code's
  release-profile wrapping arithmetic reduces them.
* Fixed-size arrays (`[u8; 4096]`, `[u8; 16]`, `[u16; 16]`, `[u8; 256]`,
  `[bool; 16]`) are total functions `Nat → _`; every indexed access whose
  index is not already provably in range is guarded, and an out-of-range
  index yields an explicit `Fault` value — the counterpart of the Rust
  bounds-check panic, which deterministically reports the error and halts
  execution (no state survives a fault).
* `println!` logging has no modelled effect.
-/

/-- The machine state of `struct Chip8` (src/main.rs lines 4-33). -/
structure Chip8 where
  memory : Nat → Nat
  registers : Nat → Nat
  pc : Nat
  i : Nat
  display : Nat → Nat
  keys : Nat → Bool
  waiting_for_key : Bool
  key_register : Nat
  delay_timer : Nat
  sound_timer : Nat
  stack : Nat → Nat
  sp : Nat

/-- Faults: each constructor records the out-of-range index whose Rust
array bounds check would panic (deterministically halting execution). -/
inductive Fault where
  | memOOB (addr : Nat)
  | stackOOB (idx : Nat)
  | keyOOB (idx : Nat)
  | regOOB (idx : Nat)
deriving DecidableEq

/-- `2^64`, the modulus of `usize` arithmetic. -/
def USIZE : Nat := 18446744073709551616

/-- Pointwise array update (`arr[k] = v`). -/
def updf (f : Nat → Nat) (k v : Nat) : Nat → Nat :=
  fun a => if a = k then v else f a

/-- Wrapping 16-bit addition. -/
def wadd16 (a b : Nat) : Nat := (a + b) % 65536

/-- Wrapping 16-bit subtraction (for `b ≤ 65536`). -/
def wsub16 (a b : Nat) : Nat := (a + 65536 - b) % 65536

/-- Wrapping `usize` subtraction (for `b ≤ 2^64`). -/
def wsub64 (a b : Nat) : Nat := (a + USIZE - b) % USIZE

/-- Opcode field `x = (opcode & 0x0F00) >> 8`. -/
def xOf (op : Nat) : Nat := (op &&& 0x0F00) >>> 8

/-- Opcode field `y = (opcode & 0x00F0) >> 4`. -/
def yOf (op : Nat) : Nat := (op &&& 0x00F0) >>> 4

/-- Opcode field `n = opcode & 0x000F`. -/
def nOf (op : Nat) : Nat := op &&& 0x000F

/-- Opcode field `nn = opcode & 0x00FF`. -/
def nnOf (op : Nat) : Nat := op &&& 0x00FF

/-- Opcode field `nnn = opcode & 0x0FFF`. -/
def nnnOf (op : Nat) : Nat := op &&& 0x0FFF

/-- `Chip8::fetch` (src/main.rs lines 150-154): big-endian 16-bit word at
`[PC, PC+1]`; each memory index is bounds-checked against 4096. -/
def fetch (s : Chip8) : Except Fault Nat :=
  if s.pc < 4096 then
    let hi := s.memory s.pc
    let loAddr := (s.pc + 1) % 65536
    if loAddr < 4096 then .ok ((hi <<< 8) ||| s.memory loAddr)
    else .error (.memOOB loAddr)
  else .error (.memOOB s.pc)

/-- One iteration of the `DXYN` row loop (src/main.rs lines 289-309) for a
given `row`: sprite byte read at `(I + row)` (u16 add, bounds-checked),
XOR into the primary display byte, conditional XOR of the spill-over into
the following byte, setting VF on a numeric decrease of a touched byte. -/
def drawStep (px py shift : Nat) (s : Chip8) (row : Nat) : Except Fault Chip8 :=
  let addr := (s.i + row) % 65536
  if addr < 4096 then
    let sprite := s.memory addr
    let drow := (py + row) % 32
    let idx := drow * 8 + px / 8
    let old := s.display idx
    let newb := old ^^^ (sprite >>> shift)
    let s1 : Chip8 :=
      { s with display := updf s.display idx newb,
               registers := if old ≠ 0 ∧ newb < old then updf s.registers 0xF 1
                            else s.registers }
    if shift ≠ 0 ∧ px + 8 < 64 then
      let old2 := s1.display (idx + 1)
      let new2 := old2 ^^^ ((sprite <<< (8 - shift)) % 256)
      .ok { s1 with display := updf s1.display (idx + 1) new2,
                    registers := if old2 ≠ 0 ∧ new2 < old2 then updf s1.registers 0xF 1
                                 else s1.registers }
    else .ok s1
  else .error (.memOOB addr)

/-- The `for row in 0..height` loop of `DXYN`, processing the listed rows
in order and propagating the first fault. -/
def drawList (px py shift : Nat) (rows : List Nat) (s : Chip8) : Except Fault Chip8 :=
  match rows with
  | [] => .ok s
  | r :: rest =>
    match drawStep px py shift s r with
    | .ok s1 => drawList px py shift rest s1
    | .error e => .error e

/-- `Chip8::execute` (src/main.rs lines 156-377): decode the nibble fields
and dispatch on the top nibble, then on the secondary nibble/byte for the
0x0/0x8/0xE/0xF families; unknown opcodes only log and leave the state
unchanged. -/
def execute (opcode : Nat) (s : Chip8) : Except Fault Chip8 :=
  let x := xOf opcode
  let y := yOf opcode
  let n := nOf opcode
  let nn := nnOf opcode
  let nnn := nnnOf opcode
  if opcode &&& 0xF000 = 0x0000 then
    if opcode = 0x00E0 then
      .ok { s with display := fun _ => 0 }
    else if opcode = 0x00EE then
      let sp1 := wsub64 s.sp 1
      if sp1 < 16 then .ok { s with sp := sp1, pc := s.stack sp1 }
      else .error (.stackOOB sp1)
    else .ok s
  else if opcode &&& 0xF000 = 0x1000 then
    .ok { s with pc := wsub16 nnn 2 }
  else if opcode &&& 0xF000 = 0x2000 then
    if s.sp < 16 then
      .ok { s with stack := updf s.stack s.sp s.pc, sp := s.sp + 1, pc := wsub16 nnn 2 }
    else .error (.stackOOB s.sp)
  else if opcode &&& 0xF000 = 0x3000 then
    if s.registers x = nn then .ok { s with pc := wadd16 s.pc 2 } else .ok s
  else if opcode &&& 0xF000 = 0x4000 then
    if s.registers x ≠ nn then .ok { s with pc := wadd16 s.pc 2 } else .ok s
  else if opcode &&& 0xF000 = 0x5000 then
    if s.registers x = s.registers y then .ok { s with pc := wadd16 s.pc 2 } else .ok s
  else if opcode &&& 0xF000 = 0x6000 then
    .ok { s with registers := updf s.registers x nn }
  else if opcode &&& 0xF000 = 0x7000 then
    .ok { s with registers := updf s.registers x ((s.registers x + nn) % 256) }
  else if opcode &&& 0xF000 = 0x8000 then
    if opcode &&& 0x000F = 0x0000 then
      .ok { s with registers := updf s.registers x (s.registers y) }
    else if opcode &&& 0x000F = 0x0002 then
      .ok { s with registers := updf s.registers x (s.registers x &&& s.registers y) }
    else if opcode &&& 0x000F = 0x0004 then
      let result := (s.registers x + s.registers y) % 256
      let overflow := 256 ≤ s.registers x + s.registers y
      .ok { s with registers := updf (updf s.registers x result) 0xF (if overflow then 1 else 0) }
    else if opcode &&& 0x000F = 0x0005 then
      let result := (s.registers x + 256 - s.registers y) % 256
      let underflow := s.registers x < s.registers y
      .ok { s with registers := updf (updf s.registers x result) 0xF (if underflow then 0 else 1) }
    else .ok s
  else if opcode &&& 0xF000 = 0x9000 then
    if s.registers x ≠ s.registers y then .ok { s with pc := wadd16 s.pc 2 } else .ok s
  else if opcode &&& 0xF000 = 0xA000 then
    .ok { s with i := nnn }
  else if opcode &&& 0xF000 = 0xD000 then
    let px := s.registers x % 64
    let py := s.registers y % 32
    let shift := px % 8
    drawList px py shift (List.range n) { s with registers := updf s.registers 0xF 0 }
  else if opcode &&& 0xF000 = 0xE000 then
    if opcode &&& 0x00FF = 0x009E then
      let key := s.registers x
      if key < 16 then
        (if s.keys key then .ok { s with pc := wadd16 s.pc 2 } else .ok s)
      else .error (.keyOOB key)
    else if opcode &&& 0x00FF = 0x00A1 then
      let key := s.registers x
      if key < 16 then
        (if s.keys key then .ok s else .ok { s with pc := wadd16 s.pc 2 })
      else .error (.keyOOB key)
    else .ok s
  else if opcode &&& 0xF000 = 0xF000 then
    if opcode &&& 0x00FF = 0x07 then
      .ok { s with registers := updf s.registers x s.delay_timer }
    else if opcode &&& 0x00FF = 0x0A then
      .ok { s with waiting_for_key := true, key_register := x, pc := wsub16 s.pc 2 }
    else if opcode &&& 0x00FF = 0x15 then
      .ok { s with delay_timer := s.registers x }
    else if opcode &&& 0x00FF = 0x18 then
      .ok { s with sound_timer := s.registers x }
    else if opcode &&& 0x00FF = 0x29 then
      .ok { s with i := (s.registers x * 5) % 256 + 0x050 }
    else if opcode &&& 0x00FF = 0x33 then
      let rx := s.registers x
      if s.i < 4096 then
        let m1 := updf s.memory s.i (rx / 100)
        let a2 := (s.i + 1) % 65536
        if a2 < 4096 then
          let m2 := updf m1 a2 (rx % 100 / 10)
          let a3 := (s.i + 2) % 65536
          if a3 < 4096 then .ok { s with memory := updf m2 a3 (rx % 100 % 10) }
          else .error (.memOOB a3)
        else .error (.memOOB a2)
      else .error (.memOOB s.i)
    else if opcode &&& 0x00FF = 0x65 then
      .ok s
    else .ok s
  else .ok s

/-- The key scan of `Chip8::cycle` (src/main.rs lines 381-388): first
pressed key at index `idx, idx+1, ...` within the next `r` entries. -/
def firstPressedFrom (keys : Nat → Bool) : Nat → Nat → Option Nat
  | _, 0 => none
  | idx, r + 1 => if keys idx then some idx else firstPressedFrom keys (idx + 1) r

/-- `Chip8::cycle` (src/main.rs lines 379-398): while waiting for a key,
scan the 16 keys and resolve on the lowest pressed one; otherwise fetch,
execute, and advance PC by 2. -/
def cycle (s : Chip8) : Except Fault Chip8 :=
  if s.waiting_for_key then
    match firstPressedFrom s.keys 0 16 with
    | none => .ok s
    | some k =>
      if s.key_register < 16 then
        .ok { s with registers := updf s.registers s.key_register k,
                     waiting_for_key := false, pc := wadd16 s.pc 2 }
      else .error (.regOOB s.key_register)
  else
    match fetch s with
    | .error e => .error e
    | .ok op =>
      match execute op s with
      | .error e => .error e
      | .ok s1 => .ok { s1 with pc := wadd16 s1.pc 2 }

/-- Two consecutive `cycle()` calls, propagating a fault of the first. -/
def cycle2 (s : Chip8) : Except Fault Chip8 :=
  match cycle s with
  | .error e => .error e
  | .ok s1 => cycle s1

/-- The zeroed machine state used for concrete test inputs (memory,
registers, display, keys and stack all zero; PC at 0x200). -/
def z : Chip8 :=
  { memory := fun _ => 0, registers := fun _ => 0, pc := 0x200, i := 0,
    display := fun _ => 0, keys := fun _ => false, waiting_for_key := false,
    key_register := 0, delay_timer := 0, sound_timer := 0,
    stack := fun _ => 0, sp := 0 }

theorem updf_eq (f : Nat → Nat) (k v : Nat) : updf f k v k = v := by
  simp [updf]

theorem updf_ne (f : Nat → Nat) (k v a : Nat) (h : a ≠ k) : updf f k v a = f a := by
  simp [updf, h]

/-- Concrete state for C1: `I = 0x300`, `memory[0x300] = 0xAB`, `V0 = 0`. -/
def c1state : Chip8 := { z with i := 0x300, memory := updf z.memory 0x300 0xAB }

/-- C1: executing `FX65` should load registers `0..X` from memory at `I`,
but the handler (src/main.rs lines 366-368) is an empty block: on the
state with `I = 0x300`, `memory[I] = 0xAB` and `V0 = 0`, executing
`0xF065` leaves the state unchanged, so `V0 = 0 ≠ 0xAB = memory[I + 0]`.
The code contradicts its own comment ("Fills from V0 to VX with values
from memory starting at address I"): a code bug, not a spec error. -/
theorem c1_fx65_is_noop :
    execute 0xF065 c1state = .ok c1state ∧
    c1state.memory (c1state.i + 0) = 0xAB ∧ c1state.registers 0 = 0 :=
  ⟨rfl, by decide, rfl⟩

/-- C2: a call (`2NNN`) with the stack pointer at capacity 16, and a
return (`00EE`) with an empty stack, are detected error conditions: the
bounds check on `stack` fails (in Rust, a panic that reports the fault
and halts), execution yields an explicit `Fault` and no wrapped or
corrupted state is ever produced. For `00EE` the `usize` decrement wraps
to `2^64 - 1`, which the subsequent `stack` index check catches. -/
theorem c2_stack_faults (s : Chip8) (op : Nat) :
    (op &&& 0xF000 = 0x2000 → s.sp = 16 → execute op s = .error (.stackOOB 16)) ∧
    (s.sp = 0 → execute 0x00EE s = .error (.stackOOB 18446744073709551615)) := by
  constructor
  · intro hop hsp
    simp [execute, hop, hsp]
  · intro hsp
    simp [execute, hsp, wsub64, USIZE]
    decide

/-- State with a full stack (`sp = 16`) for the C2 witness. -/
def c2full : Chip8 := { z with sp := 16 }

/-- C2 witness: concrete call on a full stack and return on an empty
stack, both faulting. -/
theorem c2_stack_faults_witness :
    execute 0x2345 c2full = .error (.stackOOB 16) ∧
    execute 0x00EE z = .error (.stackOOB 18446744073709551615) :=
  ⟨(c2_stack_faults c2full 0x2345).1 (by decide) rfl,
   (c2_stack_faults z 0x2345).2 rfl⟩

/-- C4 counterexample: the claim asserts that after `7XNN` the register
`VF` is unchanged, for every X; but `0x7F01` (X = 15) on the zero state
sets `VF` from 0 to 1, because VF itself is the destination register. -/
theorem c4_counterexample :
    ∃ s1, execute 0x7F01 z = .ok s1 ∧ s1.registers 15 = 1 ∧ z.registers 15 = 0 := by
  refine ⟨_, rfl, by decide, rfl⟩

/-- C4 amended (restricted to destination register X ≠ 15; the X = 15
behaviour is the subject of C10): for 8-bit `a`, `b`, `7XNN` leaves
`(a + b) mod 256` in register X with VF unchanged, and `8XY4` leaves
`(a + b) mod 256` in register X with `VF = 1` iff `a + b ≥ 256`. -/
theorem c4_amended (s : Chip8) (a b : Nat) (ha : a < 256) (hb : b < 256) :
    (∀ op, op &&& 0xF000 = 0x7000 → xOf op ≠ 15 →
      s.registers (xOf op) = a → nnOf op = b →
      ∃ s1, execute op s = .ok s1 ∧ s1.registers (xOf op) = (a + b) % 256 ∧
        s1.registers 15 = s.registers 15) ∧
    (∀ op, op &&& 0xF000 = 0x8000 → op &&& 0x000F = 0x0004 → xOf op ≠ 15 →
      s.registers (xOf op) = a → s.registers (yOf op) = b →
      ∃ s1, execute op s = .ok s1 ∧ s1.registers (xOf op) = (a + b) % 256 ∧
        (s1.registers 15 = 1 ↔ 256 ≤ a + b)) := by
  constructor
  · intro op hop hx hra hnn
    refine ⟨{ s with registers :=
        (updf s.registers (xOf op) ((s.registers (xOf op) + nnOf op) % 256)) },
      by simp [execute, hop], ?_, ?_⟩
    · dsimp only
      rw [updf_eq, hra, hnn]
    · dsimp only
      rw [updf_ne _ _ _ _ (Ne.symm hx)]
  · intro op hop hsub hx hra hrb
    refine ⟨{ s with registers :=
        (updf (updf s.registers (xOf op) ((s.registers (xOf op) + s.registers (yOf op)) % 256))
          15 (if 256 ≤ s.registers (xOf op) + s.registers (yOf op) then 1 else 0)) },
      by simp [execute, hop, hsub], ?_, ?_⟩
    · dsimp only
      rw [updf_ne _ _ _ _ hx, updf_eq, hra, hrb]
    · dsimp only
      rw [updf_eq, hra, hrb]
      by_cases h : 256 ≤ a + b <;> simp [h]

/-- State for the C4 witness: `V0 = 250`, `V1 = 10`. -/
def c4w : Chip8 := { z with registers := updf (updf z.registers 0 250) 1 10 }

/-- C4 witness: `0x7006` adds 6 to `V0 = 250` (wraps to 0, VF untouched)
and `0x8014` adds `V1 = 10` to `V0 = 250` (wraps, VF = 1). -/
theorem c4_amended_witness :
    (∃ s1, execute 0x7006 c4w = .ok s1 ∧
      s1.registers (xOf 0x7006) = (250 + 6) % 256 ∧
      s1.registers 15 = c4w.registers 15) ∧
    (∃ s1, execute 0x8014 c4w = .ok s1 ∧
      s1.registers (xOf 0x8014) = (250 + 10) % 256 ∧
      (s1.registers 15 = 1 ↔ 256 ≤ 250 + 10)) :=
  ⟨(c4_amended c4w 250 6 (by decide) (by decide)).1 0x7006 (by decide) (by decide)
     rfl (by decide),
   (c4_amended c4w 250 10 (by decide) (by decide)).2 0x8014 (by decide) (by decide)
     (by decide) rfl rfl⟩

/-- State for the C5 counterexample: `VF = 5`, `V0 = 3`. -/
def c5s : Chip8 := { z with registers := updf (updf z.registers 15 5) 0 3 }

/-- C5 counterexample: the claim asserts register X holds `(a - b) mod
256` after `8XY5` for every X; but `0x8F05` (X = 15) with `VF = a = 5`
and `V0 = b = 3` leaves `VF = 1` (the borrow flag), not `(5-3) mod 256 =
2` — the flag write overwrites the result when X = 15. -/
theorem c5_counterexample :
    ∃ s1, execute 0x8F05 c5s = .ok s1 ∧ s1.registers 15 = 1 ∧ (1 : Nat) ≠ 2 := by
  refine ⟨_, rfl, by decide, by decide⟩

/-- C5 amended (restricted to destination register X ≠ 15; the X = 15
behaviour is the subject of C10): for 8-bit `a`, `b`, `8XY5` leaves
`(a - b) mod 256` (written `(a + 256 - b) % 256`) in register X, and
`VF = 0` if `a < b` (borrow), else `VF = 1`. -/
theorem c5_amended (s : Chip8) (a b : Nat) (ha : a < 256) (hb : b < 256) (op : Nat)
    (hop : op &&& 0xF000 = 0x8000) (hsub : op &&& 0x000F = 0x0005) (hx : xOf op ≠ 15)
    (hra : s.registers (xOf op) = a) (hrb : s.registers (yOf op) = b) :
    ∃ s1, execute op s = .ok s1 ∧ s1.registers (xOf op) = (a + 256 - b) % 256 ∧
      s1.registers 15 = (if a < b then 0 else 1) := by
  refine ⟨{ s with registers :=
      (updf (updf s.registers (xOf op) ((s.registers (xOf op) + 256 - s.registers (yOf op)) % 256))
        15 (if s.registers (xOf op) < s.registers (yOf op) then 0 else 1)) },
    by simp [execute, hop, hsub], ?_, ?_⟩
  · dsimp only
    rw [updf_ne _ _ _ _ hx, updf_eq, hra, hrb]
  · dsimp only
    rw [updf_eq, hra, hrb]

/-- State for the C5 witness: `V2 = 3`, `V3 = 5`. -/
def c5w : Chip8 := { z with registers := updf (updf z.registers 2 3) 3 5 }

/-- C5 witness: `0x8235` subtracts `V3 = 5` from `V2 = 3`, wrapping to
254 with `VF = 0` (borrow). -/
theorem c5_amended_witness :
    ∃ s1, execute 0x8235 c5w = .ok s1 ∧
      s1.registers (xOf 0x8235) = (3 + 256 - 5) % 256 ∧
      s1.registers 15 = (if 3 < 5 then 0 else 1) :=
  c5_amended c5w 3 5 (by decide) (by decide) 0x8235 (by decide) (by decide)
    (by decide) rfl rfl

/-- State for the C6 counterexample: `V0 = 52`. -/
def c6s : Chip8 := { z with registers := updf z.registers 0 52 }

/-- C6 counterexample: the claim asserts `FX29` sets `I = 0x050 + 5*v`
for every 8-bit `v`; but `registers[x] * 5` is a `u8` multiplication that
wraps modulo 256, so for `v = 52` the code sets `I = 0x050 + (260 % 256)
= 0x54`, not `0x050 + 260 = 0x154`. -/
theorem c6_counterexample :
    ∃ s1, execute 0xF029 c6s = .ok s1 ∧ s1.i = 0x54 ∧ (0x54 : Nat) ≠ 0x050 + 5 * 52 := by
  refine ⟨_, rfl, by decide, by decide⟩

/-- C6 amended: `FX29` sets `I = 0x050 + ((5 * v) mod 256)` where `v` is
register X's value — the glyph address `0x050 + 5*v` only when `5*v`
fits in a byte (`v ≤ 51`, covering all hex digits). -/
theorem c6_amended (s : Chip8) (v : Nat) (hv : v < 256) (op : Nat)
    (hop : op &&& 0xF000 = 0xF000) (hsub : op &&& 0x00FF = 0x29)
    (hrv : s.registers (xOf op) = v) :
    ∃ s1, execute op s = .ok s1 ∧ s1.i = 0x050 + 5 * v % 256 := by
  refine ⟨{ s with i := s.registers (xOf op) * 5 % 256 + 0x050 },
    by simp [execute, hop, hsub], ?_⟩
  show s.registers (xOf op) * 5 % 256 + 0x050 = 0x050 + 5 * v % 256
  rw [hrv]
  omega

/-- State for the C6 witness: `V7 = 10`. -/
def c6w : Chip8 := { z with registers := updf z.registers 7 10 }

/-- C6 witness: `0xF729` with `V7 = 10` sets `I = 0x050 + 50 = 0x82`. -/
theorem c6_amended_witness :
    ∃ s1, execute 0xF729 c6w = .ok s1 ∧ s1.i = 0x050 + 5 * 10 % 256 :=
  c6_amended c6w 10 (by decide) 0xF729 (by decide) (by decide) rfl

/-- C10: for `8XY4` and `8XY5` with X = 15 the flag assignment follows
the result assignment, so VF ends holding exactly the carry/borrow flag
and the arithmetic result is discarded (every register other than VF is
unchanged, and VF holds the flag, not the sum/difference). -/
theorem c10_flag_overwrites_result (s : Chip8) (a b : Nat) (ha : a < 256) (hb : b < 256)
    (hva : s.registers 15 = a) :
    (∀ op, op &&& 0xF000 = 0x8000 → op &&& 0x000F = 0x0004 → xOf op = 15 →
      s.registers (yOf op) = b →
      ∃ s1, execute op s = .ok s1 ∧ s1.registers 15 = (if 256 ≤ a + b then 1 else 0) ∧
        ∀ k, k ≠ 15 → s1.registers k = s.registers k) ∧
    (∀ op, op &&& 0xF000 = 0x8000 → op &&& 0x000F = 0x0005 → xOf op = 15 →
      s.registers (yOf op) = b →
      ∃ s1, execute op s = .ok s1 ∧ s1.registers 15 = (if a < b then 0 else 1) ∧
        ∀ k, k ≠ 15 → s1.registers k = s.registers k) := by
  constructor
  · intro op hop hsub hx hrb
    refine ⟨{ s with registers :=
        (updf (updf s.registers (xOf op) ((s.registers (xOf op) + s.registers (yOf op)) % 256))
          15 (if 256 ≤ s.registers (xOf op) + s.registers (yOf op) then 1 else 0)) },
      by simp [execute, hop, hsub], ?_, ?_⟩
    · dsimp only
      rw [updf_eq, hx, hva, hrb]
    · intro k hk
      dsimp only
      rw [updf_ne _ _ _ _ hk, hx, updf_ne _ _ _ _ hk]
  · intro op hop hsub hx hrb
    refine ⟨{ s with registers :=
        (updf (updf s.registers (xOf op) ((s.registers (xOf op) + 256 - s.registers (yOf op)) % 256))
          15 (if s.registers (xOf op) < s.registers (yOf op) then 0 else 1)) },
      by simp [execute, hop, hsub], ?_, ?_⟩
    · dsimp only
      rw [updf_eq, hx, hva, hrb]
    · intro k hk
      dsimp only
      rw [updf_ne _ _ _ _ hk, hx, updf_ne _ _ _ _ hk]

/-- State for the C10 witness: `VF = 200`, `V1 = 100`. -/
def c10w : Chip8 := { z with registers := updf (updf z.registers 15 200) 1 100 }

/-- C10 witness: `0x8F14` leaves `VF = 1` (carry of 200+100), not the sum
44; `0x8F15` leaves `VF = 1` (no borrow in 200-100), not the difference. -/
theorem c10_flag_overwrites_result_witness :
    (∃ s1, execute 0x8F14 c10w = .ok s1 ∧
      s1.registers 15 = (if 256 ≤ 200 + 100 then 1 else 0) ∧
      ∀ k, k ≠ 15 → s1.registers k = c10w.registers k) ∧
    (∃ s1, execute 0x8F15 c10w = .ok s1 ∧
      s1.registers 15 = (if 200 < 100 then 0 else 1) ∧
      ∀ k, k ≠ 15 → s1.registers k = c10w.registers k) :=
  ⟨(c10_flag_overwrites_result c10w 200 100 (by decide) (by decide) rfl).1 0x8F14
     (by decide) (by decide) (by decide) rfl,
   (c10_flag_overwrites_result c10w 200 100 (by decide) (by decide) rfl).2 0x8F15
     (by decide) (by decide) (by decide) rfl⟩

/-- A non-waiting cycle with successful fetch and execute advances the
post-execute PC by 2. -/
theorem cycle_ok (t t1 : Chip8) (opc : Nat) (hw : t.waiting_for_key = false)
    (hf : fetch t = .ok opc) (he : execute opc t = .ok t1) :
    cycle t = .ok { t1 with pc := wadd16 t1.pc 2 } := by
  simp [cycle, hw, hf, he]

/-- Two successful cycles compose. -/
theorem cycle2_eq (t t1 t2 : Chip8) (h1 : cycle t = .ok t1) (h2 : cycle t1 = .ok t2) :
    cycle2 t = .ok t2 := by
  simp [cycle2, h1, h2]

/-- C7: a full cycle executing `2NNN` followed by a full cycle executing
`00EE` returns with `PC = P + 2` (the address after the call) and the
stack pointer restored to its pre-call value. Hypotheses: not in key-wait
mode, stack pointer in valid range (`sp < 16`), the fetch at `P` yields a
`2NNN` opcode, and memory at `NNN` holds the bytes `00 EE` at valid
addresses. -/
theorem c7_call_return_roundtrip (s : Chip8) (op nnn : Nat)
    (hw : s.waiting_for_key = false) (hsp : s.sp < 16) (hpc : s.pc + 1 < 4096)
    (hf : fetch s = .ok op) (hop : op &&& 0xF000 = 0x2000) (hnnn : op &&& 0x0FFF = nnn)
    (hn : nnn + 1 < 4096) (hm0 : s.memory nnn = 0x00) (hm1 : s.memory (nnn + 1) = 0xEE) :
    ∃ s2, cycle2 s = .ok s2 ∧ s2.pc = s.pc + 2 ∧ s2.sp = s.sp := by
  have hn0 : nnn < 4096 := by omega
  have hexec : execute op s =
      .ok { s with stack := updf s.stack s.sp s.pc, sp := s.sp + 1, pc := wsub16 nnn 2 } := by
    simp [execute, nnnOf, hop, hnnn, hsp]
  have hpcw : wadd16 (wsub16 nnn 2) 2 = nnn := by
    unfold wadd16 wsub16
    omega
  have h1 : cycle s =
      .ok { s with stack := updf s.stack s.sp s.pc, sp := s.sp + 1, pc := nnn } := by
    have h := cycle_ok s _ op hw hf hexec
    dsimp only at h
    rw [hpcw] at h
    exact h
  have e3 : wsub64 (s.sp + 1) 1 = s.sp := by
    unfold wsub64 USIZE
    omega
  have hf2 : fetch { s with stack := updf s.stack s.sp s.pc, sp := s.sp + 1, pc := nnn } =
      .ok 0xEE := by
    have e5 : (nnn + 1) % 65536 = nnn + 1 := Nat.mod_eq_of_lt (by omega)
    simp [fetch, hn0, hn, e5, hm0, hm1]
  have hexec2 : execute 0xEE
        { s with stack := updf s.stack s.sp s.pc, sp := s.sp + 1, pc := nnn } =
      .ok { s with stack := updf s.stack s.sp s.pc, sp := s.sp, pc := s.pc } := by
    have hA : (0xEE : Nat) &&& 0xF000 = 0x0000 := by decide
    simp [execute, hA, e3, hsp, updf]
  have h2 := cycle_ok
    { s with stack := updf s.stack s.sp s.pc, sp := s.sp + 1, pc := nnn }
    { s with stack := updf s.stack s.sp s.pc, sp := s.sp, pc := s.pc }
    0xEE hw hf2 hexec2
  have hfin := cycle2_eq s _ _ h1 h2
  refine ⟨_, hfin, ?_, rfl⟩
  show wadd16 s.pc 2 = s.pc + 2
  unfold wadd16
  omega

/-- Concrete C7 witness program: `2300` (call 0x300) at 0x200, `00EE`
(return) at 0x300. -/
def c7w : Chip8 :=
  { z with memory :=
      (updf (updf (updf (updf z.memory 0x200 0x23) 0x201 0x00) 0x300 0x00) 0x301 0xEE) }

/-- C7 witness: two cycles of the concrete call/return program land on
`PC = 0x202` with the stack pointer back at 0. -/
theorem c7_call_return_roundtrip_witness :
    ∃ s2, cycle2 c7w = .ok s2 ∧ s2.pc = c7w.pc + 2 ∧ s2.sp = c7w.sp :=
  c7_call_return_roundtrip c7w 0x2300 0x300 rfl (by decide) (by decide) rfl
    (by decide) (by decide) (by decide) (by decide) (by decide)

/-- Scanning the keys finds nothing when all scanned entries are up. -/
theorem firstPressedFrom_none (keys : Nat → Bool) :
    ∀ r idx, (∀ j, idx ≤ j → j < idx + r → keys j = false) →
      firstPressedFrom keys idx r = none := by
  intro r
  induction r with
  | zero =>
    intro idx h
    rfl
  | succ m ih =>
    intro idx h
    simp only [firstPressedFrom]
    rw [h idx le_rfl (by omega)]
    simp only [Bool.false_eq_true, if_false]
    exact ih (idx + 1) (fun j h1 h2 => h j (by omega) (by omega))

/-- Scanning the keys returns the lowest pressed index in range. -/
theorem firstPressedFrom_some (keys : Nat → Bool) :
    ∀ r idx k, idx ≤ k → k < idx + r → keys k = true →
      (∀ j, idx ≤ j → j < k → keys j = false) →
      firstPressedFrom keys idx r = some k := by
  intro r
  induction r with
  | zero =>
    intro idx k h1 h2 h3 h4
    exact absurd h2 (by omega)
  | succ m ih =>
    intro idx k h1 h2 h3 h4
    simp only [firstPressedFrom]
    by_cases hidx : idx = k
    · subst hidx
      rw [h3]
      simp
    · rw [h4 idx le_rfl (by omega)]
      simp only [Bool.false_eq_true, if_false]
      exact ih (idx + 1) k (by omega) (by omega) h3 (fun j ha hb => h4 j (by omega) hb)

/-- C9: in key-wait mode targeting a valid register, `cycle()` with no
key pressed changes nothing at all ( `.ok s` is literally the input
state); with at least one key pressed it stores the lowest pressed key
index `k` into the target register, clears wait mode, and advances PC by
2 (the 16-bit add `wadd16 s.pc 2`), touching nothing else. -/
theorem c9_key_wait (s : Chip8) (k : Nat)
    (hw : s.waiting_for_key = true) (hreg : s.key_register < 16) :
    ((∀ j, j < 16 → s.keys j = false) → cycle s = .ok s) ∧
    (k < 16 → s.keys k = true → (∀ j, j < k → s.keys j = false) →
      cycle s = .ok { s with registers := updf s.registers s.key_register k,
                             waiting_for_key := false, pc := wadd16 s.pc 2 }) := by
  constructor
  · intro hnone
    have h0 : firstPressedFrom s.keys 0 16 = none :=
      firstPressedFrom_none s.keys 16 0 (fun j h1 h2 => hnone j (by omega))
    simp [cycle, hw, h0]
  · intro hk hkey hlow
    have h0 : firstPressedFrom s.keys 0 16 = some k :=
      firstPressedFrom_some s.keys 16 0 k (by omega) (by omega) hkey
        (fun j h1 h2 => hlow j h2)
    simp [cycle, hw, h0, hreg]

/-- Boolean key-array update, for building concrete key states. -/
def updk (f : Nat → Bool) (k : Nat) (v : Bool) : Nat → Bool :=
  fun a => if a = k then v else f a

/-- Key-wait state targeting register 3, no keys pressed. -/
def c9a : Chip8 := { z with waiting_for_key := true, key_register := 3 }

/-- Key-wait state targeting register 3, key 5 pressed. -/
def c9b : Chip8 :=
  { z with waiting_for_key := true, key_register := 3, keys := updk z.keys 5 true }

/-- C9 witness: with no key pressed `cycle` is an identity; with key 5
pressed it stores 5 into register 3, clears wait mode, and bumps PC. -/
theorem c9_key_wait_witness :
    cycle c9a = .ok c9a ∧
    cycle c9b = .ok { c9b with registers := updf c9b.registers c9b.key_register 5,
                               waiting_for_key := false, pc := wadd16 c9b.pc 2 } :=
  ⟨(c9_key_wait c9a 0 rfl (by decide)).1 (by decide),
   (c9_key_wait c9b 5 rfl (by decide)).2 (by decide) rfl (by decide)⟩

/-- A draw row whose sprite address is out of range faults. -/
theorem drawStep_err (px py shift : Nat) (s : Chip8) (r : Nat)
    (h : ¬ (s.i + r) % 65536 < 4096) :
    drawStep px py shift s r = .error (.memOOB ((s.i + r) % 65536)) := by
  simp [drawStep, h]

/-- A draw row whose sprite address is in range succeeds and preserves
the index register and memory. -/
theorem drawStep_ok (px py shift : Nat) (s : Chip8) (r : Nat)
    (h : (s.i + r) % 65536 < 4096) :
    ∃ s1, drawStep px py shift s r = .ok s1 ∧ s1.i = s.i ∧ s1.memory = s.memory := by
  simp only [drawStep]
  rw [if_pos h]
  by_cases hb : shift ≠ 0 ∧ px + 8 < 64
  · rw [if_pos hb]
    exact ⟨_, rfl, rfl, rfl⟩
  · rw [if_neg hb]
    exact ⟨_, rfl, rfl, rfl⟩

/-- Unfolding the row loop over a successful head row. -/
theorem drawList_cons_ok {px py shift r : Nat} {rest : List Nat} {s s1 : Chip8}
    (h : drawStep px py shift s r = .ok s1) :
    drawList px py shift (r :: rest) s = drawList px py shift rest s1 := by
  simp [drawList, h]

/-- Unfolding the row loop over a faulting head row. -/
theorem drawList_cons_err {px py shift r : Nat} {rest : List Nat} {s : Chip8} {e : Fault}
    (h : drawStep px py shift s r = .error e) :
    drawList px py shift (r :: rest) s = .error e := by
  simp [drawList, h]

/-- The row loop over rows `start, start+1, ..., start+len-1` faults
exactly when some processed row's sprite address `I + row` resolves at or
beyond the 4096-byte memory (rows are processed in order, so the first
out-of-range address is always reached and detected). -/
theorem drawList_err_iff (px py shift : Nat) :
    ∀ (len start : Nat) (s : Chip8), s.i + start < 65536 →
      ((∃ e, drawList px py shift (List.range' start len) s = .error e) ↔
        ∃ k, k < len ∧ 4096 ≤ s.i + (start + k)) := by
  intro len
  induction len with
  | zero =>
    intro start s hb
    constructor
    · rintro ⟨e, he⟩
      simp [drawList, List.range'] at he
    · rintro ⟨k, hk, _⟩
      exact absurd hk (by omega)
  | succ m ih =>
    intro start s hb
    rw [List.range'_succ]
    by_cases haddr : (s.i + start) % 65536 < 4096
    · have hid : (s.i + start) % 65536 = s.i + start := Nat.mod_eq_of_lt hb
      have hlt : s.i + start < 4096 := by omega
      obtain ⟨s1, hs1, hi1, _⟩ := drawStep_ok px py shift s start haddr
      rw [drawList_cons_ok hs1]
      have hb1 : s1.i + (start + 1) < 65536 := by
        rw [hi1]
        omega
      rw [ih (start + 1) s1 hb1, hi1]
      constructor
      · rintro ⟨k, hk, hge⟩
        exact ⟨k + 1, by omega, by omega⟩
      · rintro ⟨k, hk, hge⟩
        have hk0 : k ≠ 0 := by
          intro h0
          rw [h0] at hge
          omega
        exact ⟨k - 1, by omega, by omega⟩
    · rw [drawList_cons_err (drawStep_err px py shift s start haddr)]
      have hid : (s.i + start) % 65536 = s.i + start := Nat.mod_eq_of_lt hb
      rw [hid] at haddr
      constructor
      · intro _
        exact ⟨0, by omega, by omega⟩
      · intro _
        exact ⟨_, rfl⟩

/-- `execute` on a `DXYN` opcode is exactly the row loop started on the
state with VF cleared. -/
theorem execute_D_eq (op : Nat) (s : Chip8) (hop : op &&& 0xF000 = 0xD000) :
    execute op s =
      drawList (s.registers (xOf op) % 64) (s.registers (yOf op) % 32)
        (s.registers (xOf op) % 64 % 8) (List.range (nOf op))
        { s with registers := updf s.registers 0xF 0 } := by
  simp [execute, hop]

/-- C3: the memory accesses named by the claim are bounds-checked: fetch
faults exactly when `PC` or `PC+1` resolves outside the 4096-byte memory;
the `FX33` BCD store faults exactly when one of `I, I+1, I+2` does; a
`DXYN` draw faults exactly when some drawn row's sprite address `I + row`
does. Faults are explicit `Fault` values (Rust's reporting bounds-check
panic); no access is ever performed unchecked, and in-range executions
never fault. `I` is 16-bit (`s.i < 65536`) for the draw part. -/
theorem c3_memory_bounds_checked (s : Chip8) (op : Nat) :
    ((∃ e, fetch s = .error e) ↔ 4096 ≤ s.pc + 1) ∧
    (op &&& 0xF000 = 0xF000 → op &&& 0x00FF = 0x33 →
      ((∃ e, execute op s = .error e) ↔ 4096 ≤ s.i + 2)) ∧
    (op &&& 0xF000 = 0xD000 → s.i < 65536 →
      ((∃ e, execute op s = .error e) ↔ ∃ r, r < nOf op ∧ 4096 ≤ s.i + r)) := by
  refine ⟨?_, ?_, ?_⟩
  · by_cases h1 : s.pc < 4096
    · have e5 : (s.pc + 1) % 65536 = s.pc + 1 := Nat.mod_eq_of_lt (by omega)
      by_cases h2 : s.pc + 1 < 4096
      · constructor
        · rintro ⟨e, he⟩
          simp [fetch, h1, e5, h2] at he
        · intro hge
          omega
      · constructor
        · intro _
          omega
        · intro _
          exact ⟨.memOOB (s.pc + 1), by simp [fetch, h1, e5, h2]⟩
    · constructor
      · intro _
        omega
      · intro _
        exact ⟨.memOOB s.pc, by simp [fetch, h1]⟩
  · intro hF h33
    by_cases hi1 : s.i < 4096
    · have e1 : (s.i + 1) % 65536 = s.i + 1 := Nat.mod_eq_of_lt (by omega)
      have e2 : (s.i + 2) % 65536 = s.i + 2 := Nat.mod_eq_of_lt (by omega)
      by_cases hi2 : s.i + 1 < 4096
      · by_cases hi3 : s.i + 2 < 4096
        · constructor
          · rintro ⟨e, he⟩
            simp [execute, hF, h33, hi1, e1, hi2, e2, hi3] at he
          · intro hge
            omega
        · constructor
          · intro _
            omega
          · intro _
            exact ⟨.memOOB (s.i + 2), by simp [execute, hF, h33, hi1, e1, hi2, e2, hi3]⟩
      · constructor
        · intro _
          omega
        · intro _
          exact ⟨.memOOB (s.i + 1), by simp [execute, hF, h33, hi1, e1, hi2]⟩
    · constructor
      · intro _
        omega
      · intro _
        exact ⟨.memOOB s.i, by simp [execute, hF, h33, hi1]⟩
  · intro hD hi
    rw [execute_D_eq op s hD, List.range_eq_range']
    have hb : ({ s with registers := updf s.registers 0xF 0 } : Chip8).i + 0 < 65536 := by
      show s.i + 0 < 65536
      omega
    rw [drawList_err_iff _ _ _ (nOf op) 0 _ hb]
    constructor
    · rintro ⟨k, hk, hge⟩
      dsimp only at hge
      exact ⟨k, hk, by omega⟩
    · rintro ⟨r, hr, hge⟩
      refine ⟨r, hr, ?_⟩
      show 4096 ≤ s.i + (0 + r)
      omega

/-- Boundary state for the C3 witness: `PC = 4095`, `I = 4094`. -/
def c3s : Chip8 := { z with pc := 4095, i := 4094 }

/-- C3 witness: at `PC = 4095` the fetch faults (PC+1 is out of range);
at `I = 4094` the `FX33` store faults (I+2 out of range) and a 2-row
draw faults (I+1 out of range). -/
theorem c3_memory_bounds_checked_witness :
    ((∃ e, fetch c3s = .error e) ↔ 4096 ≤ c3s.pc + 1) ∧
    ((∃ e, execute 0xF533 c3s = .error e) ↔ 4096 ≤ c3s.i + 2) ∧
    ((∃ e, execute 0xD002 c3s = .error e) ↔ ∃ r, r < nOf 0xD002 ∧ 4096 ≤ c3s.i + r) :=
  ⟨(c3_memory_bounds_checked c3s 0xF533).1,
   (c3_memory_bounds_checked c3s 0xF533).2.1 (by decide) (by decide),
   (c3_memory_bounds_checked c3s 0xD002).2.2 (by decide) (by decide)⟩

/-- An updated array read one past the written slot is unchanged. -/
theorem updf_at_succ (f : Nat → Nat) (k v : Nat) : updf f k v (k + 1) = f (k + 1) :=
  updf_ne f k v (k + 1) (by omega)

/-- The spec's per-row collision test for `DXYN`, read off the state the
row starts from: the primary byte's XOR result is numerically below its
old value, or (when the sprite spills into the next byte) the spill
byte's XOR result is below its old value. The spill byte is read from
the pre-row display, which is legitimate because the primary write lands
at a different index. -/
def collideStep (px py shift : Nat) (s : Chip8) (row : Nat) : Bool :=
  let addr := (s.i + row) % 65536
  let sprite := s.memory addr
  let drow := (py + row) % 32
  let idx := drow * 8 + px / 8
  let old := s.display idx
  let newb := old ^^^ (sprite >>> shift)
  let old2 := s.display (idx + 1)
  let new2 := old2 ^^^ ((sprite <<< (8 - shift)) % 256)
  decide (old ≠ 0 ∧ newb < old) ||
    (decide (shift ≠ 0 ∧ px + 8 < 64) && decide (old2 ≠ 0 ∧ new2 < old2))

/-- A successful draw row leaves `VF = 1` exactly when the row collides
in the sense of `collideStep`, and otherwise leaves VF at its prior
value (`drawStep` never writes any other value into VF). -/
theorem drawStep_vf (px py shift : Nat) (s : Chip8) (r : Nat) (s1 : Chip8)
    (h : drawStep px py shift s r = .ok s1) :
    s1.registers 15 = (if collideStep px py shift s r then 1 else s.registers 15) := by
  simp only [drawStep] at h
  by_cases haddr : (s.i + r) % 65536 < 4096
  · rw [if_pos haddr] at h
    by_cases hb : shift ≠ 0 ∧ px + 8 < 64
    · rw [if_pos hb] at h
      injection h with h2
      subst h2
      dsimp only
      rw [updf_at_succ]
      split
      next hc2 =>
        rw [updf_eq]
        simp [collideStep, hb, hc2]
      next hc2 =>
        split
        next hc1 =>
          rw [updf_eq]
          simp [collideStep, hb, hc1, hc2]
        next hc1 =>
          simp [collideStep, hb, hc1, hc2]
    · rw [if_neg hb] at h
      injection h with h2
      subst h2
      dsimp only
      split
      next hc1 =>
        rw [updf_eq]
        simp [collideStep, hb, hc1]
      next hc1 =>
        simp [collideStep, hb, hc1]
  · rw [if_neg haddr] at h
    simp at h

/-- The collision outcome of the whole row loop: `none` on a fault,
otherwise `some b` with `b` true iff some processed row collides. The
state is threaded through `drawStep` exactly as the loop does it. -/
def collideList (px py shift : Nat) (rows : List Nat) (s : Chip8) : Option Bool :=
  match rows with
  | [] => some false
  | r :: rest =>
    match drawStep px py shift s r with
    | .error _ => none
    | .ok s1 =>
      match collideList px py shift rest s1 with
      | none => none
      | some b => some (collideStep px py shift s r || b)

/-- A successful row loop computes a collision verdict `b`, and the
final VF is 1 when `b` holds and the starting VF otherwise. -/
theorem collide_vf (px py shift : Nat) :
    ∀ (rows : List Nat) (s s2 : Chip8), drawList px py shift rows s = .ok s2 →
      ∃ b, collideList px py shift rows s = some b ∧
        s2.registers 15 = (if b then 1 else s.registers 15) := by
  intro rows
  induction rows with
  | nil =>
    intro s s2 h
    simp [drawList] at h
    subst h
    exact ⟨false, rfl, by simp⟩
  | cons r rest ih =>
    intro s s2 h
    cases hstep : drawStep px py shift s r with
    | error e =>
      rw [drawList_cons_err hstep] at h
      simp at h
    | ok s1 =>
      rw [drawList_cons_ok hstep] at h
      obtain ⟨b, hb, hvf⟩ := ih s1 s2 h
      refine ⟨collideStep px py shift s r || b, ?_, ?_⟩
      · simp [collideList, hstep, hb]
      · rw [hvf, drawStep_vf px py shift s r s1 hstep]
        by_cases hc : collideStep px py shift s r <;> by_cases hb2 : b = true <;>
          simp [hc, hb2]

/-- The collision verdict of a whole `DXYN` draw: the row loop's verdict
from the VF-cleared start state. -/
def drawCollides (op : Nat) (s : Chip8) : Option Bool :=
  collideList (s.registers (xOf op) % 64) (s.registers (yOf op) % 32)
    (s.registers (xOf op) % 64 % 8) (List.range (nOf op))
    { s with registers := updf s.registers 0xF 0 }

/-- Display/memory state for the C8 counterexample: display byte 0 is
`0x01` (pixel (7,0) lit), sprite byte `0x03` at address 0. -/
def c8s : Chip8 := { z with display := updf z.display 0 1, memory := updf z.memory 0 3 }

/-- C8 counterexample: drawing sprite `0x03` over display byte `0x01`
(aligned, one row) XORs the byte to `0x02`: the previously-set bit 0 is
cleared — a real collision — but `0x02 > 0x01`, so the numeric test
fails and VF ends 0. The claimed equivalence between "VF = 1" and "some
previously-set bit was cleared" is false on this input. -/
theorem c8_counterexample :
    ∃ s1, execute 0xD001 c8s = .ok s1 ∧ s1.registers 15 = 0 ∧
      c8s.display 0 &&& 1 = 1 ∧ s1.display 0 &&& 1 = 0 := by
  refine ⟨_, rfl, by decide, by decide, by decide⟩

/-- C8 amended: VF is reset to 0 before any row is drawn, and after a
successful `DXYN` draw VF is 1 exactly when the numeric test `new < old`
succeeded on some touched byte (`drawCollides`); that test implies a
previously-set bit was cleared, but not conversely, so VF can stay 0
even though a set pixel was erased. -/
theorem c8_amended (s : Chip8) (op : Nat) (s2 : Chip8)
    (hop : op &&& 0xF000 = 0xD000) (hex : execute op s = .ok s2) :
    ∃ b, drawCollides op s = some b ∧ s2.registers 15 = (if b then 1 else 0) := by
  rw [execute_D_eq op s hop] at hex
  obtain ⟨b, hb, hvf⟩ := collide_vf _ _ _ (List.range (nOf op)) _ s2 hex
  refine ⟨b, hb, ?_⟩
  rw [hvf]
  have h0 : ({ s with registers := updf s.registers 0xF 0 } : Chip8).registers 15 = 0 :=
    updf_eq s.registers 15 0
  rw [h0]

/-- Collision state for the C8 witness: display byte 0 and sprite byte
both `0x80`, so the XOR clears the byte and the numeric test fires. -/
def c8w : Chip8 := { z with display := updf z.display 0 0x80, memory := updf z.memory 0 0x80 }

/-- The state `execute 0xD001 c8w` computes. -/
def c8wRes : Chip8 :=
  { c8w with display := updf c8w.display 0 0,
             registers := (updf (updf c8w.registers 0xF 0) 0xF 1) }

/-- C8 witness: the concrete collision draw yields verdict `true` and
`VF = 1`. -/
theorem c8_amended_witness :
    ∃ b, drawCollides 0xD001 c8w = some b ∧ c8wRes.registers 15 = (if b then 1 else 0) :=
  c8_amended c8w 0xD001 c8wRes (by decide) (by rfl)
